import Mathlib

/-!
Shallow embedding of the share-allocation core of `subsector.cpp`
(GCAM subsector share calculation, capacity limits, calibration
adjustment and share-weight interpolation), together with theorems
checking the natural-language specification against the code.

Doubles are modelled as exact real numbers (`ℝ`) where transcendental
functions (`exp`, `pow`) appear, and as exact rationals (`ℚ`) for the
purely arithmetic routines; rounding is abstracted.  For the one routine
whose behaviour hinges on IEEE-754 special values (division by zero in
`Subsector::adjustForCalibration`), doubles are modelled by the type
`DVal` below, which carries `±∞` and `NaN` explicitly.
-/

namespace GcamSubsector

/-- Modelled from the spec: the tolerance `ε` (the source calls
`util::getSmallNumber()`, whose definition is outside the embedded
sources).  The spec only uses it as a small positive tolerance below
`1`; the concrete GCAM value is `1e-6`. -/
noncomputable def smallNumber : ℝ := 1 / 1000000

theorem smallNumber_pos : 0 < smallNumber := by norm_num [smallNumber]

/-- `Subsector::capLimitTransform` (subsector.cpp, lines 877–888).
`newShare` is initialised to `capLimit` and is replaced by the logistic
squashing only when `capLimit < 1 - SMALL_NUM`; the constants are
`exponentValue = 2` and `mult = 1.4`. -/
noncomputable def capLimitTransform (capLimit orgShare : ℝ) : ℝ :=
  if capLimit < 1 - smallNumber then
    orgShare * Real.exp ((1.4 * orgShare / capLimit) ^ 2) /
      (1 + orgShare / capLimit * Real.exp ((1.4 * orgShare / capLimit) ^ 2))
  else
    capLimit

/-- In the squashing branch the transform can be rewritten with a single
cleared denominator: `c·g/(c + g)` where `g = s·exp((1.4·s/c)²)`. -/
lemma capLimitTransform_eq_div (c s : ℝ) (hc : 0 < c)
    (hcl : c < 1 - smallNumber) :
    capLimitTransform c s =
      c * (s * Real.exp ((1.4 * s / c) ^ 2)) /
        (c + s * Real.exp ((1.4 * s / c) ^ 2)) := by
  rw [capLimitTransform, if_pos hcl]
  have hc0 : c ≠ 0 := ne_of_gt hc
  have hden : 1 + s / c * Real.exp ((1.4 * s / c) ^ 2)
      = (c + s * Real.exp ((1.4 * s / c) ^ 2)) / c := by
    field_simp
  rw [hden, div_div_eq_mul_div]
  ring

/-- Monotone step for the cleared-denominator form: `c·g/(c+g)` is
monotone in `g` on `g ≥ 0` for `c > 0`. -/
lemma cg_div_mono (c g₁ g₂ : ℝ) (hc : 0 < c) (hg₁ : 0 ≤ g₁) (hg : g₁ ≤ g₂) :
    c * g₁ / (c + g₁) ≤ c * g₂ / (c + g₂) := by
  have hd₁ : 0 < c + g₁ := by linarith
  have hd₂ : 0 < c + g₂ := by linarith
  rw [div_le_div_iff₀ hd₁ hd₂]
  have hsq := mul_le_mul_of_nonneg_left hg (mul_nonneg hc.le hc.le)
  nlinarith [hsq]

/-- The exponential weight `g(s) = s·exp((1.4·s/c)²)` is monotone in `s`
on `s ≥ 0` for `c > 0`. -/
lemma expWeight_mono (c s₁ s₂ : ℝ) (hc : 0 < c) (hs₁ : 0 ≤ s₁)
    (hs : s₁ ≤ s₂) :
    s₁ * Real.exp ((1.4 * s₁ / c) ^ 2) ≤ s₂ * Real.exp ((1.4 * s₂ / c) ^ 2) := by
  have hbase : 1.4 * s₁ / c ≤ 1.4 * s₂ / c := by gcongr
  have hexp : Real.exp ((1.4 * s₁ / c) ^ 2) ≤ Real.exp ((1.4 * s₂ / c) ^ 2) :=
    Real.exp_le_exp.mpr (pow_le_pow_left₀ (by positivity) hbase 2)
  exact mul_le_mul hs hexp (le_of_lt (Real.exp_pos _)) (by linarith)

/-- Claim C1 counterexample: the spec says that for `capLimit ≥ 1 - ε`
the transform returns `rawShare` unchanged, but at `capLimit = 1`,
`rawShare = 1/2` the code returns `capLimit = 1`, not `1/2`. -/
theorem capLimitTransform_high_cap_not_id :
    1 - smallNumber ≤ (1 : ℝ) ∧ capLimitTransform 1 (1 / 2) ≠ 1 / 2 := by
  constructor
  · norm_num [smallNumber]
  · rw [capLimitTransform, if_neg (by norm_num [smallNumber])]
    norm_num

/-- Claim C1 (amended): when `capLimit ≥ 1 - ε` the transform returns
`capLimit` itself (its initial value; the squashing branch is skipped),
which the caller `limitShares` treats as an inactive limit. -/
theorem capLimitTransform_high_cap_returns_capLimit (c s : ℝ)
    (h : 1 - smallNumber ≤ c) : capLimitTransform c s = c := by
  rw [capLimitTransform, if_neg (not_lt.mpr h)]

theorem capLimitTransform_high_cap_returns_capLimit_witness :
    1 - smallNumber ≤ (1 : ℝ) ∧ capLimitTransform 1 0 = 1 :=
  ⟨by norm_num [smallNumber],
   capLimitTransform_high_cap_returns_capLimit 1 0 (by norm_num [smallNumber])⟩

/-- Claim C4 counterexample: the spec says the result is strictly below
`capLimit` for every `capLimit < 1`, but for `capLimit = 1 - ε`
(which is `< 1`) the squashing branch is skipped and the code returns
`capLimit` itself, not a value strictly below it. -/
theorem capLimitTransform_near_one_not_strict :
    (1 - smallNumber : ℝ) < 1 ∧
      ¬ capLimitTransform (1 - smallNumber) 0 < 1 - smallNumber := by
  constructor
  · norm_num [smallNumber]
  · rw [capLimitTransform, if_neg (lt_irrefl _)]
    exact lt_irrefl _

/-- Claim C4 (amended): for fixed `capLimit` with
`0 < capLimit < 1 - ε` and nonnegative shares, `capLimitTransform` is
monotone non-decreasing in `rawShare` and its value stays strictly
below `capLimit`; in particular at `capLimit = 0.5, rawShare = 0.5`
(scenario B) the result is strictly below `0.5`. -/
theorem capLimitTransform_mono_and_below (c s₁ s₂ : ℝ) (hc : 0 < c)
    (hcl : c < 1 - smallNumber) (hs₁ : 0 ≤ s₁) (hs : s₁ ≤ s₂) :
    capLimitTransform c s₁ ≤ capLimitTransform c s₂ ∧
      capLimitTransform c s₂ < c := by
  have hs₂ : 0 ≤ s₂ := le_trans hs₁ hs
  have hg₂ : 0 ≤ s₂ * Real.exp ((1.4 * s₂ / c) ^ 2) := by positivity
  rw [capLimitTransform_eq_div c s₁ hc hcl, capLimitTransform_eq_div c s₂ hc hcl]
  constructor
  · exact cg_div_mono c _ _ hc (by positivity) (expWeight_mono c s₁ s₂ hc hs₁ hs)
  · rw [div_lt_iff₀ (by linarith)]
    nlinarith

theorem capLimitTransform_mono_and_below_witness :
    (0 : ℝ) < 1 / 2 ∧ (1 / 2 : ℝ) < 1 - smallNumber ∧ (0 : ℝ) ≤ 0 ∧
      (0 : ℝ) ≤ 1 / 2 ∧
      (capLimitTransform (1 / 2) 0 ≤ capLimitTransform (1 / 2) (1 / 2) ∧
        capLimitTransform (1 / 2) (1 / 2) < 1 / 2) :=
  ⟨by norm_num, by norm_num [smallNumber], le_refl 0, by norm_num,
   capLimitTransform_mono_and_below (1 / 2) 0 (1 / 2) (by norm_num)
     (by norm_num [smallNumber]) (le_refl 0) (by norm_num)⟩

/-- Claim C5: for `capLimit < 1 - ε` the transform is exactly the
logistic-style squashing
`rawShare · factor / (1 + (rawShare/capLimit) · factor)` with
`factor = exp((1.4 · rawShare / capLimit)²)`. -/
theorem capLimitTransform_formula (c s : ℝ) (h : c < 1 - smallNumber) :
    capLimitTransform c s =
      s * Real.exp ((1.4 * s / c) ^ 2) /
        (1 + s / c * Real.exp ((1.4 * s / c) ^ 2)) := by
  rw [capLimitTransform, if_pos h]

theorem capLimitTransform_formula_witness :
    (1 / 2 : ℝ) < 1 - smallNumber ∧
      capLimitTransform (1 / 2) (1 / 2) =
        (1 / 2 : ℝ) * Real.exp ((1.4 * (1 / 2) / (1 / 2)) ^ 2) /
          (1 + (1 / 2) / (1 / 2) * Real.exp ((1.4 * (1 / 2) / (1 / 2)) ^ 2)) :=
  ⟨by norm_num [smallNumber],
   capLimitTransform_formula (1 / 2) (1 / 2) (by norm_num [smallNumber])⟩

/-- A C++ `double` value as used by `Subsector::adjustForCalibration`:
an exact rational for finite values (rounding abstracted), plus the
IEEE-754 special values `+∞`, `-∞`, `NaN`. -/
inductive DVal where
  | fin : ℚ → DVal
  | inf : DVal
  | ninf : DVal
  | nan : DVal
deriving DecidableEq

namespace DVal

/-- IEEE-754 subtraction restricted to the cases the embedded code can
produce. -/
def sub : DVal → DVal → DVal
  | fin a, fin b => fin (a - b)
  | fin _, inf => ninf
  | fin _, ninf => inf
  | inf, fin _ => inf
  | ninf, fin _ => ninf
  | inf, ninf => inf
  | ninf, inf => ninf
  | _, _ => nan

/-- IEEE-754 multiplication: `±∞ · 0 = NaN`, signs propagate, `NaN`
absorbs. -/
def mul : DVal → DVal → DVal
  | fin a, fin b => fin (a * b)
  | fin a, inf => if 0 < a then inf else if a < 0 then ninf else nan
  | fin a, ninf => if 0 < a then ninf else if a < 0 then inf else nan
  | inf, fin b => if 0 < b then inf else if b < 0 then ninf else nan
  | ninf, fin b => if 0 < b then ninf else if b < 0 then inf else nan
  | inf, inf => inf
  | inf, ninf => ninf
  | ninf, inf => ninf
  | ninf, ninf => inf
  | _, _ => nan

/-- IEEE-754 division: a nonzero finite value divided by zero gives a
signed infinity, `0 / 0 = NaN`, finite over infinite gives `0`. -/
def div : DVal → DVal → DVal
  | fin a, fin b =>
      if b = 0 then (if 0 < a then inf else if a < 0 then ninf else nan)
      else fin (a / b)
  | fin _, inf => fin 0
  | fin _, ninf => fin 0
  | inf, fin b => if 0 ≤ b then inf else ninf
  | ninf, fin b => if 0 ≤ b then ninf else inf
  | _, _ => nan

/-- IEEE-754 `<`: any comparison with `NaN` is false. -/
def blt : DVal → DVal → Bool
  | fin a, fin b => decide (a < b)
  | fin _, inf => true
  | ninf, fin _ => true
  | ninf, inf => true
  | _, _ => false

/-- The value is a finite, non-negative number (the state the spec
promises for share-weights after calibration adjustment). -/
def finiteNonneg : DVal → Bool
  | fin q => decide (0 ≤ q)
  | _ => false

@[simp] lemma sub_fin (a b : ℚ) : sub (fin a) (fin b) = fin (a - b) := rfl

@[simp] lemma mul_fin (a b : ℚ) : mul (fin a) (fin b) = fin (a * b) := rfl

@[simp] lemma blt_fin (a b : ℚ) :
    blt (fin a) (fin b) = decide (a < b) := rfl

lemma div_fin_of_ne (a b : ℚ) (hb : b ≠ 0) :
    div (fin a) (fin b) = fin (a / b) := by
  simp [div, hb]

end DVal

/-- Result of `Subsector::adjustForCalibration` on the state it
mutates: the new share-weight `shrwts[period]`, the (possibly rescaled)
local variable `calOutputSubsect`, and the computed `availableDemand`. -/
structure CalibResult where
  shrwt : DVal
  calOutputSubsect : DVal
  availableDemand : DVal
deriving DecidableEq

/-- Lines 1245–1247: `if (shrwts[period] == 0 && calOutputSubsect > 0)
shrwts[period] = 1;`. -/
def shareWeightGuard (shrwt0 calOutputSubsect0 : DVal) : DVal :=
  if shrwt0 = DVal.fin 0 ∧ DVal.blt (DVal.fin 0) calOutputSubsect0 = true
  then DVal.fin 1 else shrwt0

/-- Lines 1250–1253: `availableDemand = sectorDemand - totalfixedOutput;
if (availableDemand < 0) availableDemand = 0;`. -/
def availableDemandOf (sectorDemand totalfixedOutput : DVal) : DVal :=
  let ad := DVal.sub sectorDemand totalfixedOutput
  if DVal.blt ad (DVal.fin 0) = true then DVal.fin 0 else ad

/-- Lines 1259–1261: unless `totalCalOutputs < availableDemand` and not
`allFixedOutput`, rescale `calOutputSubsect` by
`availableDemand / totalCalOutputs`. -/
def rescaleCalOutput (totalCalOutputs availableDemand : DVal)
    (allFixedOutput : Bool) (calOutputSubsect0 : DVal) : DVal :=
  if ¬ (DVal.blt totalCalOutputs availableDemand = true ∧
        allFixedOutput = false)
  then DVal.mul calOutputSubsect0 (DVal.div availableDemand totalCalOutputs)
  else calOutputSubsect0

/-- Lines 1264–1268: `subSectorDemand = share[period] * sectorDemand;
if (subSectorDemand > 0) shrwts[period] *= calOutputSubsect /
subSectorDemand;`. -/
def shareWeightScale (shrwt share0 sectorDemand calOutputSubsect : DVal) :
    DVal :=
  let subSectorDemand := DVal.mul share0 sectorDemand
  if DVal.blt (DVal.fin 0) subSectorDemand = true
  then DVal.mul shrwt (DVal.div calOutputSubsect subSectorDemand)
  else shrwt

/-- Lines 1271–1275: `if (shrwts[period] < 0) shrwts[period] = 1;`. -/
def shareWeightClamp (v : DVal) : DVal :=
  if DVal.blt v (DVal.fin 0) = true then DVal.fin 1 else v

/-- `Subsector::adjustForCalibration` (subsector.cpp, lines 1236–1297),
restricted to the state it reads and writes.  The trailing
technology-level redistribution mutates only technology share-weights
and is outside this state. -/
def adjustForCalibration (sectorDemand totalfixedOutput totalCalOutputs :
    DVal) (allFixedOutput : Bool) (shrwt0 share0 calOutputSubsect0 : DVal) :
    CalibResult :=
  let shrwt1 := shareWeightGuard shrwt0 calOutputSubsect0
  let availableDemand := availableDemandOf sectorDemand totalfixedOutput
  let calOutput1 :=
    rescaleCalOutput totalCalOutputs availableDemand allFixedOutput
      calOutputSubsect0
  let shrwt2 := shareWeightScale shrwt1 share0 sectorDemand calOutput1
  ⟨shareWeightClamp shrwt2, calOutput1, availableDemand⟩

lemma shareWeightGuard_fin (a c : ℚ) :
    shareWeightGuard (DVal.fin a) (DVal.fin c)
      = DVal.fin (if a = 0 ∧ 0 < c then 1 else a) := by
  by_cases h : a = 0 ∧ 0 < c
  · simp [shareWeightGuard, h.1, h.2]
  · rw [shareWeightGuard, if_neg (by simpa using h), if_neg h]

lemma availableDemandOf_fin (d f : ℚ) :
    availableDemandOf (DVal.fin d) (DVal.fin f) = DVal.fin (max (d - f) 0) := by
  by_cases h : d - f < 0
  · simp [availableDemandOf, h, max_eq_right (le_of_lt h)]
  · simp [availableDemandOf, h, max_eq_left (not_lt.mp h)]

lemma rescaleCalOutput_fin (t a c : ℚ) (afo : Bool) (ht : t ≠ 0) :
    rescaleCalOutput (DVal.fin t) (DVal.fin a) afo (DVal.fin c)
      = DVal.fin (if t < a ∧ afo = false then c else c * (a / t)) := by
  by_cases h : t < a ∧ afo = false
  · rw [rescaleCalOutput, if_neg (by simpa using h), if_pos h]
  · rw [rescaleCalOutput, if_pos (by simpa using h), if_neg h,
      DVal.div_fin_of_ne a t ht, DVal.mul_fin]

lemma shareWeightScale_fin (x s d y : ℚ) :
    shareWeightScale (DVal.fin x) (DVal.fin s) (DVal.fin d) (DVal.fin y)
      = DVal.fin (if 0 < s * d then x * (y / (s * d)) else x) := by
  by_cases h : 0 < s * d
  · simp only [shareWeightScale, DVal.mul_fin, DVal.blt_fin,
      decide_eq_true_eq, if_pos h, DVal.div_fin_of_ne y (s * d) (ne_of_gt h)]
  · simp only [shareWeightScale, DVal.mul_fin, DVal.blt_fin,
      decide_eq_true_eq, if_neg h]

lemma shareWeightClamp_fin (q : ℚ) :
    shareWeightClamp (DVal.fin q) = DVal.fin (if q < 0 then 1 else q) := by
  by_cases h : q < 0
  · simp [shareWeightClamp, h]
  · simp [shareWeightClamp, h]

lemma shareWeightClamp_fin_finiteNonneg (q : ℚ) :
    DVal.finiteNonneg (shareWeightClamp (DVal.fin q)) = true := by
  by_cases h : q < 0
  · simp [shareWeightClamp, h, DVal.finiteNonneg]
  · simp [shareWeightClamp, h, DVal.finiteNonneg, not_lt.mp h]

/-- The calibration adjustment written as one explicit record (the
`let`-bindings of the definition unfolded). -/
lemma adjustForCalibration_def (sectorDemand totalfixedOutput
    totalCalOutputs : DVal) (allFixedOutput : Bool)
    (shrwt0 share0 calOutputSubsect0 : DVal) :
    adjustForCalibration sectorDemand totalfixedOutput totalCalOutputs
        allFixedOutput shrwt0 share0 calOutputSubsect0
      = ⟨shareWeightClamp
            (shareWeightScale (shareWeightGuard shrwt0 calOutputSubsect0)
              share0 sectorDemand
              (rescaleCalOutput totalCalOutputs
                (availableDemandOf sectorDemand totalfixedOutput)
                allFixedOutput calOutputSubsect0)),
          rescaleCalOutput totalCalOutputs
            (availableDemandOf sectorDemand totalfixedOutput)
            allFixedOutput calOutputSubsect0,
          availableDemandOf sectorDemand totalfixedOutput⟩ := rfl

/-- Claim C2 counterexample: for `sectorDemand = 100`,
`totalfixedOutput = 40`, `totalCalOutputs = 50`, `allFixedOutput =
false` (with the subsector holding the whole calibration target of 50
and a unit share), `availableDemand` is 60 but the calibration-output
target stays at 50: it is not rescaled by `60/50 = 1.2`, because
`totalCalOutputs < availableDemand` and not all output is fixed. -/
theorem adjustForCalibration_scenarioC_not_rescaled :
    (adjustForCalibration (DVal.fin 100) (DVal.fin 40) (DVal.fin 50) false
        (DVal.fin 1) (DVal.fin 1) (DVal.fin 50)).availableDemand
      = DVal.fin 60 ∧
    (adjustForCalibration (DVal.fin 100) (DVal.fin 40) (DVal.fin 50) false
        (DVal.fin 1) (DVal.fin 1) (DVal.fin 50)).calOutputSubsect
      ≠ DVal.fin (50 * (6 / 5)) := by
  have havail : availableDemandOf (DVal.fin 100) (DVal.fin 40)
      = DVal.fin 60 := by
    rw [availableDemandOf_fin]; norm_num
  have hresc : rescaleCalOutput (DVal.fin 50) (DVal.fin 60) false
      (DVal.fin 50) = DVal.fin 50 := by
    rw [rescaleCalOutput_fin 50 60 50 false (by norm_num)]; norm_num
  norm_num [adjustForCalibration_def, havail, hresc]

/-- Claim C2 (amended): for those inputs `availableDemand = 60`, the
calibration-output target is left unchanged at 50 (the rescale branch
is skipped since `totalCalOutputs < availableDemand` and not all output
is fixed), and the share-weight is then scaled by `50/100` to `1/2`. -/
theorem adjustForCalibration_scenarioC_eval :
    adjustForCalibration (DVal.fin 100) (DVal.fin 40) (DVal.fin 50) false
        (DVal.fin 1) (DVal.fin 1) (DVal.fin 50)
      = ⟨DVal.fin (1 / 2), DVal.fin 50, DVal.fin 60⟩ := by
  have havail : availableDemandOf (DVal.fin 100) (DVal.fin 40)
      = DVal.fin 60 := by
    rw [availableDemandOf_fin]; norm_num
  have hresc : rescaleCalOutput (DVal.fin 50) (DVal.fin 60) false
      (DVal.fin 50) = DVal.fin 50 := by
    rw [rescaleCalOutput_fin 50 60 50 false (by norm_num)]; norm_num
  have hguard : shareWeightGuard (DVal.fin 1) (DVal.fin 50) = DVal.fin 1 := by
    rw [shareWeightGuard_fin]; norm_num
  have hscale : shareWeightScale (DVal.fin 1) (DVal.fin 1) (DVal.fin 100)
      (DVal.fin 50) = DVal.fin (1 / 2) := by
    rw [shareWeightScale_fin]; norm_num
  have hclamp : shareWeightClamp (DVal.fin (1 / 2)) = DVal.fin (1 / 2) := by
    rw [shareWeightClamp_fin]; norm_num
  rw [adjustForCalibration_def, havail, hresc, hguard, hscale, hclamp]

/-- Claim C3 counterexample: with `totalCalOutputs = 0` while the
subsector's calibration target is 5 (nonzero), the rescale divides by
zero; the share-weight after `adjustForCalibration` is `+∞`, not a
finite non-negative number. -/
theorem adjustForCalibration_zero_totalCal_infinite :
    (adjustForCalibration (DVal.fin 10) (DVal.fin 0) (DVal.fin 0) true
        (DVal.fin 1) (DVal.fin 1) (DVal.fin 5)).shrwt = DVal.inf ∧
    DVal.finiteNonneg
        ((adjustForCalibration (DVal.fin 10) (DVal.fin 0) (DVal.fin 0) true
          (DVal.fin 1) (DVal.fin 1) (DVal.fin 5)).shrwt) = false := by
  have h : (adjustForCalibration (DVal.fin 10) (DVal.fin 0) (DVal.fin 0) true
      (DVal.fin 1) (DVal.fin 1) (DVal.fin 5)).shrwt = DVal.inf := by
    norm_num [adjustForCalibration_def, shareWeightGuard, availableDemandOf,
      rescaleCalOutput, shareWeightScale, shareWeightClamp, DVal.sub,
      DVal.mul, DVal.div, DVal.blt, DVal.finiteNonneg]
  exact ⟨h, by rw [h]; rfl⟩

/-- Claim C3 (amended): for finite inputs with `totalCalOutputs ≠ 0`,
`adjustForCalibration` always leaves the share-weight finite and
non-negative (the final clamp resets any negative value to 1); when
`totalCalOutputs = 0` the division by zero can propagate `+∞`/`NaN`
into the share-weight, so the unrestricted claim fails. -/
theorem adjustForCalibration_finiteNonneg (d f t sh s c : ℚ) (afo : Bool)
    (ht : t ≠ 0) :
    DVal.finiteNonneg
        ((adjustForCalibration (DVal.fin d) (DVal.fin f) (DVal.fin t) afo
          (DVal.fin sh) (DVal.fin s) (DVal.fin c)).shrwt) = true := by
  have hres := rescaleCalOutput_fin t (max (d - f) 0) c afo ht
  simp only [adjustForCalibration_def, shareWeightGuard_fin,
    availableDemandOf_fin, hres, shareWeightScale_fin]
  exact shareWeightClamp_fin_finiteNonneg _

theorem adjustForCalibration_finiteNonneg_witness :
    (3 : ℚ) ≠ 0 ∧
      DVal.finiteNonneg
          ((adjustForCalibration (DVal.fin 10) (DVal.fin 2) (DVal.fin 3) false
            (DVal.fin 1) (DVal.fin 1) (DVal.fin 3)).shrwt) = true :=
  ⟨by norm_num,
   adjustForCalibration_finiteNonneg 10 2 3 1 1 3 false (by norm_num)⟩

/-- Claim C6: `availableDemand = max(sectorDemand - totalfixedOutput,
0)`, and the subsector's calibration-output target is multiplied by
`availableDemand / totalCalOutputs` exactly when it is not the case
that `totalCalOutputs < availableDemand` and not `allFixedOutput`. -/
theorem adjustForCalibration_avail_and_rescale (d f t sh s c : ℚ)
    (afo : Bool) :
    (adjustForCalibration (DVal.fin d) (DVal.fin f) (DVal.fin t) afo
        (DVal.fin sh) (DVal.fin s) (DVal.fin c)).availableDemand
      = DVal.fin (max (d - f) 0) ∧
    (adjustForCalibration (DVal.fin d) (DVal.fin f) (DVal.fin t) afo
        (DVal.fin sh) (DVal.fin s) (DVal.fin c)).calOutputSubsect
      = if t < max (d - f) 0 ∧ afo = false then DVal.fin c
        else DVal.mul (DVal.fin c)
          (DVal.div (DVal.fin (max (d - f) 0)) (DVal.fin t)) := by
  constructor
  · exact availableDemandOf_fin d f
  · show rescaleCalOutput (DVal.fin t)
        (availableDemandOf (DVal.fin d) (DVal.fin f)) afo (DVal.fin c) = _
    rw [availableDemandOf_fin]
    by_cases h : t < max (d - f) 0 ∧ afo = false
    · rw [if_pos h, rescaleCalOutput, if_neg (by simpa using h)]
    · rw [if_neg h, rescaleCalOutput, if_pos (by simpa using h)]

/-- Claim C7: if the share-weight is 0 while the subsector's total
calibrated output is positive, `adjustForCalibration` resets it to 1
first, so the outcome is the same as if the share-weight had been 1. -/
theorem adjustForCalibration_zero_shareweight_reset (d f t s c : ℚ)
    (afo : Bool) (hc : 0 < c) :
    adjustForCalibration (DVal.fin d) (DVal.fin f) (DVal.fin t) afo
        (DVal.fin 0) (DVal.fin s) (DVal.fin c)
      = adjustForCalibration (DVal.fin d) (DVal.fin f) (DVal.fin t) afo
        (DVal.fin 1) (DVal.fin s) (DVal.fin c) := by
  rw [adjustForCalibration_def, adjustForCalibration_def,
    shareWeightGuard_fin, shareWeightGuard_fin]
  norm_num [hc]

theorem adjustForCalibration_zero_shareweight_reset_witness :
    (0 : ℚ) < 5 ∧
      adjustForCalibration (DVal.fin 10) (DVal.fin 0) (DVal.fin 10) false
          (DVal.fin 0) (DVal.fin 1) (DVal.fin 5)
        = adjustForCalibration (DVal.fin 10) (DVal.fin 0) (DVal.fin 10) false
          (DVal.fin 1) (DVal.fin 1) (DVal.fin 5) :=
  ⟨by norm_num,
   adjustForCalibration_zero_shareweight_reset 10 0 10 1 5 false (by norm_num)⟩

/-- The loop of `Subsector::shareWeightLinearInterpFn` (lines
1040–1042): starting at `cur`, for `n` iterations set
`shrwts[period] = shrwts[period-1] + shareIncrement`. -/
def interpLoopN (shareIncrement : ℚ) : (ℕ → ℚ) → ℕ → ℕ → (ℕ → ℚ)
  | w, _, 0 => w
  | w, cur, n + 1 =>
      interpLoopN shareIncrement
        (Function.update w cur (w (cur - 1) + shareIncrement)) (cur + 1) n

/-- `Subsector::shareWeightLinearInterpFn` (subsector.cpp, lines
1025–1048).  `maxper` is `modeltime->getmaxper()`; `w` is the
share-weight series `shrwts`.  If `endPeriod > beginPeriod` the
increment is the slope and the loop stops before `endPeriod`; if
`endPeriod = beginPeriod` the increment is 0 and the loop runs to the
end of the horizon; otherwise the loop body never runs. -/
def shareWeightLinearInterpFn (maxper beginPeriod endPeriod : ℕ)
    (w : ℕ → ℚ) : ℕ → ℚ :=
  if endPeriod > beginPeriod then
    interpLoopN ((w endPeriod - w beginPeriod) /
        ((endPeriod : ℚ) - (beginPeriod : ℚ)))
      w (beginPeriod + 1) (endPeriod - (beginPeriod + 1))
  else if endPeriod = beginPeriod then
    interpLoopN 0 w (beginPeriod + 1) (maxper - (beginPeriod + 1))
  else w

/-- Positions below the loop cursor are never written. -/
lemma interpLoopN_lt (inc : ℚ) :
    ∀ (n : ℕ) (w : ℕ → ℚ) (s q : ℕ), q < s →
      interpLoopN inc w s n q = w q := by
  intro n
  induction n with
  | zero => intro w s q _; rfl
  | succ n ih =>
      intro w s q hq
      rw [interpLoopN, ih _ _ _ (by omega),
        Function.update_noteq (by omega)]

/-- With a zero increment the loop copies the entry just before its
start through every position it writes. -/
lemma interpLoopN_zero_const :
    ∀ (n : ℕ) (w : ℕ → ℚ) (s q : ℕ), s ≤ q → q < s + n →
      interpLoopN 0 w s n q = w (s - 1) := by
  intro n
  induction n with
  | zero => intro w s q h1 h2; omega
  | succ n ih =>
      intro w s q h1 h2
      rw [interpLoopN]
      rcases eq_or_lt_of_le h1 with h | h
      · rw [interpLoopN_lt _ _ _ _ _ (by omega), ← h,
          Function.update_same]
        simp
      · rw [ih _ _ _ (by omega) (by omega)]
        simp [Function.update_same]

/-- Claim C8: calling `shareWeightLinearInterpFn(p, p)` is the
"hold constant" sentinel: every period from `p+1` through the end of
the horizon gets the share-weight of period `p`. -/
theorem shareWeightLinearInterpFn_sentinel (maxper p q : ℕ) (w : ℕ → ℚ)
    (h1 : p + 1 ≤ q) (h2 : q < maxper) :
    shareWeightLinearInterpFn maxper p p w q = w p := by
  rw [shareWeightLinearInterpFn, if_neg (lt_irrefl p), if_pos rfl,
    interpLoopN_zero_const _ _ _ _ h1 (by omega)]
  simp

theorem shareWeightLinearInterpFn_sentinel_witness :
    2 + 1 ≤ 4 ∧ 4 < 5 ∧
      shareWeightLinearInterpFn 5 2 2 (fun n => (n : ℚ)) 4
        = (fun n => (n : ℚ)) 2 :=
  ⟨by norm_num, by norm_num,
   shareWeightLinearInterpFn_sentinel 5 2 4 (fun n => (n : ℚ))
     (by norm_num) (by norm_num)⟩

/-- The share-setting step of `Subsector::calcShare` (subsector.cpp,
lines 777–810): once `calcTechShares` and `calcPrice` have produced
`subsectorprice[period]` and the caller supplies
`scaledGdpPerCapita = gdp->getBestScaledGDPperCap(period)`, the share
is 0 for a zero price and otherwise
`shrwts · price^lexp · scaledGdpPerCapita^fuelPrefElasticity`
(real exponentiation, as `pow` on doubles). -/
noncomputable def calcShare (shareWeight lexp fuelPrefElasticity
    subsectorprice scaledGdpPerCapita : ℝ) : ℝ :=
  if subsectorprice = 0 then 0
  else shareWeight * subsectorprice ^ lexp *
    scaledGdpPerCapita ^ fuelPrefElasticity

/-- Claim C9: the subsector share is 0 when the computed price is
exactly 0, and otherwise follows the logit form with the multiplicative
fuel-preference-elasticity term on the caller-provided per-capita
scaling variable. -/
theorem calcShare_zero_price_and_logit (sw le fpe price gdp : ℝ) :
    (price = 0 → calcShare sw le fpe price gdp = 0) ∧
    (price ≠ 0 →
      calcShare sw le fpe price gdp = sw * price ^ le * gdp ^ fpe) := by
  constructor
  · intro h; rw [calcShare, if_pos h]
  · intro h; rw [calcShare, if_neg h]

theorem calcShare_zero_price_and_logit_witness :
    calcShare 2 3 1 0 5 = 0 ∧
      calcShare 2 3 1 1 5 = 2 * (1 : ℝ) ^ (3 : ℝ) * (5 : ℝ) ^ (1 : ℝ) :=
  ⟨(calcShare_zero_price_and_logit 2 3 1 0 5).1 rfl,
   (calcShare_zero_price_and_logit 2 3 1 1 5).2 (by norm_num)⟩

/-- The capacity-limit override in `Subsector::initCalc`
(subsector.cpp, lines 508–511): `if (getTotalCalOutputs(period) > 0 &&
capLimit[period] < 1) capLimit[period] = 1.0;`. -/
def initCalcCapLimitUpdate (totalCalOutputs capLimitVal : ℚ) : ℚ :=
  if 0 < totalCalOutputs ∧ capLimitVal < 1 then 1 else capLimitVal

/-- Claim C10: after `initCalc`, a subsector with positive total
calibrated output has capacity limit exactly 1 (given the data-model
invariant that a configured capacity limit lies in `(0,1]`), so the
capacity-limit transform is never active for it in that period. -/
theorem initCalcCapLimitUpdate_calibrated (t cap : ℚ) (ht : 0 < t)
    (hcap : cap ≤ 1) : initCalcCapLimitUpdate t cap = 1 := by
  rcases lt_or_eq_of_le hcap with h | h
  · rw [initCalcCapLimitUpdate, if_pos ⟨ht, h⟩]
  · rw [initCalcCapLimitUpdate, h, if_neg (by simp)]

theorem initCalcCapLimitUpdate_calibrated_witness :
    (0 : ℚ) < 5 ∧ (1 / 2 : ℚ) ≤ 1 ∧
      initCalcCapLimitUpdate 5 (1 / 2) = 1 :=
  ⟨by norm_num, by norm_num,
   initCalcCapLimitUpdate_calibrated 5 (1 / 2) (by norm_num) (by norm_num)⟩

end GcamSubsector
